import Mathlib

/-!
Verification of the hotel-dashboard booking analytics pipeline (`app.py`).

The program loads a CSV of booking records, coerces `arrival_date` to a
date, derives `room_mismatch`, filters the dataset by a date interval and
three categorical multiselects, and computes KPIs and chart series from the
filtered frame.  We embed the records as a Lean structure, the pandas
boolean-mask filter as `List.filter`, and the aggregations as list
reductions, mirroring `app.py` line by line.
-/

/-- Calendar date (the `arrival_date` column after `pd.to_datetime`).
Chronological comparison of valid dates is the lexicographic comparison of
(year, month, day). -/
structure Date where
  year : Nat
  month : Nat
  day : Nat
deriving DecidableEq

/-- Chronological order on dates: lexicographic on (year, month, day),
modelling the total order of pandas datetime64 values. -/
def Date.le (a b : Date) : Prop :=
  a.year < b.year ∨ (a.year = b.year ∧
    (a.month < b.month ∨ (a.month = b.month ∧ a.day ≤ b.day)))

instance (a b : Date) : Decidable (Date.le a b) := by
  unfold Date.le; exact inferInstance

theorem Date.le_refl (a : Date) : Date.le a a := by
  unfold Date.le; omega

theorem Date.le_trans {a b c : Date} (h1 : Date.le a b) (h2 : Date.le b c) :
    Date.le a c := by
  unfold Date.le at *; omega

theorem Date.le_total (a b : Date) : Date.le a b ∨ Date.le b a := by
  unfold Date.le; omega

/-- One row of the loaded dataframe `df` (after line 16 of `app.py`): the
columns of `cleaned_hotels.csv` used by the dashboard, with `arrival_date`
parsed and `room_mismatch` present. -/
structure Record where
  hotel : String
  arrival_date : Date
  is_canceled : String
  customer_type : String
  lead_time : Nat
  adr : ℚ
  total_guests : Nat
  is_repeated_guest : String
  reserved_room_type : String
  assigned_room_type : String
  room_mismatch : Bool
  country : String
  meal : String
  required_car_parking_spaces : Nat
  total_of_special_requests : Nat
deriving DecidableEq

/-- The sidebar filter inputs of `app.py` lines 24-30: a date interval and
the three multiselect value lists. -/
structure FilterSpec where
  start_date : Date
  end_date : Date
  hotel_type : List String
  status : List String
  customer_type : List String

/-- The boolean-mask filter of `app.py` lines 33-39: rows whose
`arrival_date` lies in `[start_date, end_date]` and whose `hotel`,
`is_canceled` and `customer_type` are `isin` the three selected lists. -/
def filtered_df (df : List Record) (spec : FilterSpec) : List Record :=
  df.filter (fun r => decide (
    Date.le spec.start_date r.arrival_date ∧
    Date.le r.arrival_date spec.end_date ∧
    r.hotel ∈ spec.hotel_type ∧
    r.is_canceled ∈ spec.status ∧
    r.customer_type ∈ spec.customer_type))

/-- Pandas `Series.mean()`: NaN on an empty series (modelled `none`),
otherwise the sum divided by the length. -/
def seriesMean (l : List ℚ) : Option ℚ :=
  match l with
  | [] => none
  | _ :: _ => some (l.sum / l.length)

/-- KPI of `app.py` line 51: `filtered_df.shape[0]`. -/
def totalBookings (view : List Record) : Nat := view.length

/-- KPI of `app.py` line 52: `(filtered_df['is_canceled'] == 'Canceled').mean()`,
the mean of the 0/1 indicator column (NaN when the view is empty). -/
def cancellationRate (view : List Record) : Option ℚ :=
  seriesMean (view.map (fun r => if r.is_canceled = "Canceled" then (1 : ℚ) else 0))

/-- KPI of `app.py` line 53: `filtered_df['adr'].mean()`. -/
def avgADR (view : List Record) : Option ℚ :=
  seriesMean (view.map (fun r => r.adr))

/-- KPI of `app.py` line 54: `filtered_df['lead_time'].mean()`. -/
def avgLeadTime (view : List Record) : Option ℚ :=
  seriesMean (view.map (fun r => (r.lead_time : ℚ)))

/-- KPI of `app.py` line 55: `filtered_df['total_guests'].mean()`. -/
def avgGuests (view : List Record) : Option ℚ :=
  seriesMean (view.map (fun r => (r.total_guests : ℚ)))

/-- KPI of `app.py` line 56: `(filtered_df['is_repeated_guest'] == 'Yes').mean()`. -/
def repeatedGuestRate (view : List Record) : Option ℚ :=
  seriesMean (view.map (fun r => if r.is_repeated_guest = "Yes" then (1 : ℚ) else 0))

/-- Sum of a 0/1 indicator column equals the count of rows satisfying the
predicate. -/
theorem sum_indicator_eq_countP (view : List Record) (p : Record → Prop)
    [DecidablePred p] :
    (view.map (fun r => if p r then (1 : ℚ) else 0)).sum =
      (view.countP (fun r => decide (p r)) : ℚ) := by
  induction view with
  | nil => simp
  | cons r rs ih =>
    by_cases h : p r <;> simp [List.countP_cons, h, ih, add_comm]

/-- Fixed booking record used to instantiate claims on concrete data. -/
def exRecord : Record :=
  { hotel := "Resort Hotel", arrival_date := ⟨2016, 7, 5⟩,
    is_canceled := "Canceled", customer_type := "Transient",
    lead_time := 30, adr := 100, total_guests := 2,
    is_repeated_guest := "No", reserved_room_type := "A",
    assigned_room_type := "B", room_mismatch := true, country := "PRT",
    meal := "BB", required_car_parking_spaces := 0,
    total_of_special_requests := 1 }

/-- Filter specification whose booking-status multiselect is empty. -/
def emptySel : FilterSpec :=
  { start_date := ⟨2015, 1, 1⟩, end_date := ⟨2017, 12, 31⟩,
    hotel_type := ["Resort Hotel", "City Hotel"], status := [],
    customer_type := ["Transient"] }

/-- Filter specification whose start date is after its end date. -/
def badSpec : FilterSpec :=
  { start_date := ⟨2017, 1, 1⟩, end_date := ⟨2015, 1, 1⟩,
    hotel_type := ["Resort Hotel", "City Hotel"],
    status := ["Canceled", "Not Canceled"], customer_type := ["Transient"] }

/-- C1: a record is in the filtered view exactly when it is a record of the
dataset whose arrival date lies in the inclusive interval and whose hotel,
cancellation status and customer type each belong to the selected sets. -/
theorem c1_filter_membership (df : List Record) (spec : FilterSpec) (r : Record) :
    r ∈ filtered_df df spec ↔
      r ∈ df ∧
      Date.le spec.start_date r.arrival_date ∧
      Date.le r.arrival_date spec.end_date ∧
      r.hotel ∈ spec.hotel_type ∧
      r.is_canceled ∈ spec.status ∧
      r.customer_type ∈ spec.customer_type := by
  simp [filtered_df, List.mem_filter]

/-- C2 counterexample: on an empty filtered view the cancellation-rate KPI
is the mean of an empty series, which is NaN (`none`), not 0. -/
theorem c2_counterexample :
    cancellationRate (filtered_df [exRecord] emptySel) ≠ some 0 := by
  decide

/-- C2 amended: the cancellation rate equals the number of records whose
`is_canceled` is the literal string "Canceled" divided by the view size on a
nonempty view, and is NaN (`none`), not 0, on an empty view. -/
theorem c2_cancellation_rate (view : List Record) :
    cancellationRate view =
      match view with
      | [] => none
      | _ :: _ => some
          ((view.countP (fun r => decide (r.is_canceled = "Canceled")) : ℚ) /
            (view.length : ℚ)) := by
  cases view with
  | nil => rfl
  | cons r rs =>
    show some ((((r :: rs).map fun x =>
        if x.is_canceled = "Canceled" then (1 : ℚ) else 0).sum) /
        (((r :: rs).map fun x =>
        if x.is_canceled = "Canceled" then (1 : ℚ) else 0).length)) = _
    rw [sum_indicator_eq_countP (r :: rs) (fun x => x.is_canceled = "Canceled"),
      List.length_map]

/-- C3 counterexample: with `start > end` the view is empty, but the
cancellation-rate KPI is then NaN (`none`), not its §4.3 sentinel 0. -/
theorem c3_counterexample :
    filtered_df [exRecord] badSpec = [] ∧
    cancellationRate (filtered_df [exRecord] badSpec) ≠ some 0 := by
  decide

/-- C3 amended: when the start date is after the end date the filter yields
the empty view without swapping the bounds, `totalBookings` is 0, and the
five mean-based KPIs are all NaN (`none`). -/
theorem c3_start_after_end (df : List Record) (spec : FilterSpec)
    (h : ¬ Date.le spec.start_date spec.end_date) :
    filtered_df df spec = [] ∧
    totalBookings (filtered_df df spec) = 0 ∧
    cancellationRate (filtered_df df spec) = none ∧
    avgADR (filtered_df df spec) = none ∧
    avgLeadTime (filtered_df df spec) = none ∧
    avgGuests (filtered_df df spec) = none ∧
    repeatedGuestRate (filtered_df df spec) = none := by
  have hnil : filtered_df df spec = [] := by
    apply List.filter_eq_nil_iff.mpr
    intro r hr
    simp only [decide_eq_true_eq, not_and]
    intro h1 h2
    exact absurd (Date.le_trans h1 h2) h
  refine ⟨hnil, ?_, ?_, ?_, ?_, ?_, ?_⟩ <;> rw [hnil] <;> rfl

/-- C3 witness: the amended claim at a concrete dataset and reversed
interval. -/
theorem c3_witness :
    filtered_df [exRecord] badSpec = [] ∧
    totalBookings (filtered_df [exRecord] badSpec) = 0 ∧
    cancellationRate (filtered_df [exRecord] badSpec) = none ∧
    avgADR (filtered_df [exRecord] badSpec) = none ∧
    avgLeadTime (filtered_df [exRecord] badSpec) = none ∧
    avgGuests (filtered_df [exRecord] badSpec) = none ∧
    repeatedGuestRate (filtered_df [exRecord] badSpec) = none :=
  c3_start_after_end [exRecord] badSpec (by decide)

/-- C4: if any of the three categorical multiselects is the empty list, the
filtered view is empty: `isin` of an empty list holds of no row. -/
theorem c4_empty_selection (df : List Record) (spec : FilterSpec)
    (h : spec.hotel_type = [] ∨ spec.status = [] ∨ spec.customer_type = []) :
    filtered_df df spec = [] := by
  apply List.filter_eq_nil_iff.mpr
  intro r hr
  simp only [decide_eq_true_eq, not_and]
  intro _ _ h3 h4 h5
  rcases h with h | h | h
  · rw [h] at h3; exact absurd h3 (List.not_mem_nil _)
  · rw [h] at h4; exact absurd h4 (List.not_mem_nil _)
  · rw [h] at h5; exact absurd h5 (List.not_mem_nil _)

/-- C4 witness: an empty booking-status selection empties the view. -/
theorem c4_witness : filtered_df [exRecord] emptySel = [] :=
  c4_empty_selection [exRecord] emptySel (Or.inr (Or.inl rfl))

/-- Year-month key of `pd.Series.dt.to_period("M")` (`app.py` line 60):
periods compare chronologically, i.e. by `year * 12 + (month - 1)`. -/
def ymKey (d : Date) : Nat := d.year * 12 + (d.month - 1)

/-- Insert a key into an ascending, duplicate-free key list, modelling the
sorted distinct group keys produced by `groupby`. -/
def insertKey (m : Nat) : List Nat → List Nat
  | [] => [m]
  | k :: ks =>
    if m < k then m :: k :: ks
    else if m = k then k :: ks
    else k :: insertKey m ks

/-- The distinct year-month group keys of a view, ascending. -/
def monthKeys (view : List Record) : List Nat :=
  view.foldr (fun r ks => insertKey (ymKey r.arrival_date) ks) []

/-- The monthly booking trend of `app.py` lines 60-61:
`groupby(arrival_date.dt.to_period("M")).size()` — each year-month present
in the view paired with its row count, keys ascending. -/
def monthly (view : List Record) : List (Nat × Nat) :=
  (monthKeys view).map
    (fun m => (m, view.countP (fun r => decide (ymKey r.arrival_date = m))))

theorem mem_insertKey (a m : Nat) (ks : List Nat) :
    a ∈ insertKey m ks ↔ a = m ∨ a ∈ ks := by
  induction ks with
  | nil => simp [insertKey]
  | cons k ks ih =>
    by_cases h1 : m < k
    · simp [insertKey, h1]
    · by_cases h2 : m = k
      · subst h2; simp [insertKey, h1]
      · simp [insertKey, h1, h2, ih]; tauto

theorem sorted_insertKey (m : Nat) (ks : List Nat)
    (h : ks.Sorted (· < ·)) : (insertKey m ks).Sorted (· < ·) := by
  induction ks with
  | nil => simp [insertKey]
  | cons k ks ih =>
    rcases List.sorted_cons.mp h with ⟨hk, hks⟩
    by_cases h1 : m < k
    · simp only [insertKey, if_pos h1]
      refine List.sorted_cons.mpr ⟨?_, h⟩
      intro b hb
      rcases List.mem_cons.mp hb with rfl | hb
      · exact h1
      · exact h1.trans (hk b hb)
    · by_cases h2 : m = k
      · subst h2; simpa [insertKey, h1] using h
      · simp only [insertKey, if_neg h1, if_neg h2]
        refine List.sorted_cons.mpr ⟨?_, ih hks⟩
        intro b hb
        rcases (mem_insertKey b m ks).mp hb with rfl | hb
        · omega
        · exact hk b hb

theorem sorted_monthKeys (view : List Record) :
    (monthKeys view).Sorted (· < ·) := by
  induction view with
  | nil => simp [monthKeys]
  | cons r rs ih => exact sorted_insertKey _ _ ih

theorem mem_monthKeys (view : List Record) (m : Nat) :
    m ∈ monthKeys view ↔ ∃ r ∈ view, ymKey r.arrival_date = m := by
  induction view with
  | nil => simp [monthKeys]
  | cons r rs ih =>
    show m ∈ insertKey (ymKey r.arrival_date) (monthKeys rs) ↔ _
    rw [mem_insertKey, ih]
    constructor
    · rintro (rfl | ⟨x, hx, rfl⟩)
      · exact ⟨r, List.mem_cons_self r rs, rfl⟩
      · exact ⟨x, List.mem_cons_of_mem r hx, rfl⟩
    · rintro ⟨x, hx, rfl⟩
      rcases List.mem_cons.mp hx with rfl | hx
      · exact Or.inl rfl
      · exact Or.inr ⟨x, hx, rfl⟩

theorem map_fst_monthly (view : List Record) :
    (monthly view).map Prod.fst = monthKeys view := by
  simp [monthly, List.map_map, Function.comp_def]

theorem sum_map_add (K : List Nat) (f g : Nat → Nat) :
    (K.map (fun m => f m + g m)).sum = (K.map f).sum + (K.map g).sum := by
  induction K with
  | nil => simp
  | cons a ks ih => simp only [List.map_cons, List.sum_cons, ih]; omega

theorem sum_map_ite_one (K : List Nat) (x : Nat) (hnd : K.Nodup)
    (hx : x ∈ K) : (K.map (fun m => if x = m then 1 else 0)).sum = 1 := by
  induction K with
  | nil => cases hx
  | cons a ks ih =>
    rcases List.nodup_cons.mp hnd with ⟨ha, hks⟩
    rcases List.mem_cons.mp hx with rfl | h
    · have hz : (ks.map (fun m => if x = m then 1 else 0)).sum = 0 := by
        apply List.sum_eq_zero
        intro y hy
        rcases List.mem_map.mp hy with ⟨b, hb, rfl⟩
        exact if_neg (by rintro rfl; exact ha hb)
      rw [List.map_cons, List.sum_cons, if_pos rfl, hz]
    · have hne : x ≠ a := by rintro rfl; exact ha h
      simp only [List.map_cons, List.sum_cons, if_neg hne, ih hks h]

theorem sum_counts (K : List Nat) (l : List Nat) (hnd : K.Nodup)
    (hmem : ∀ x ∈ l, x ∈ K) :
    (K.map (fun m => l.countP (fun y => decide (y = m)))).sum = l.length := by
  induction l with
  | nil => simp
  | cons x xs ih =>
    have hx := hmem x (List.mem_cons_self x xs)
    have hxs : ∀ y ∈ xs, y ∈ K := fun y hy => hmem y (List.mem_cons_of_mem _ hy)
    have hsplit : (fun m => (x :: xs).countP (fun y => decide (y = m))) =
        (fun m => xs.countP (fun y => decide (y = m)) +
          (if x = m then 1 else 0)) := by
      funext m
      rw [List.countP_cons]
      by_cases h : x = m <;> simp [h]
    rw [hsplit, sum_map_add, ih hxs, sum_map_ite_one K x hnd hx,
      List.length_cons]

/-- C5: the monthly booking series buckets by year-month of the arrival
date, each bucket carries the count of its records, the months are sorted
strictly ascending, and exactly the months occurring in the view appear (no
zero-count months are synthesized). -/
theorem c5_monthly_buckets (view : List Record) :
    ((monthly view).map Prod.fst).Sorted (· < ·) ∧
    (∀ p ∈ monthly view,
      p.2 = view.countP (fun r => decide (ymKey r.arrival_date = p.1))) ∧
    (∀ m : Nat,
      m ∈ (monthly view).map Prod.fst ↔
        ∃ r ∈ view, ymKey r.arrival_date = m) := by
  refine ⟨?_, ?_, ?_⟩
  · rw [map_fst_monthly]; exact sorted_monthKeys view
  · intro p hp
    rcases List.mem_map.mp hp with ⟨m, _, rfl⟩
    rfl
  · intro m
    rw [map_fst_monthly]
    exact mem_monthKeys view m

/-- C5 witness: July 2016 (period key 24198) appears as a bucket of the
one-record view exactly because a record arrives in that month. -/
theorem c5_witness : ∃ r ∈ [exRecord], ymKey r.arrival_date = 24198 :=
  ((c5_monthly_buckets [exRecord]).2.2 24198).mp (by decide)

/-- C6: the Total Bookings KPI equals the sum of the per-month counts of
the monthly booking series of the same view. -/
theorem c6_total_eq_monthly_sum (view : List Record) :
    totalBookings view = ((monthly view).map Prod.snd).sum := by
  have hmap : (monthly view).map Prod.snd =
      (monthKeys view).map
        (fun m => (view.map (fun r => ymKey r.arrival_date)).countP
          (fun y => decide (y = m))) := by
    simp only [monthly, List.map_map]
    apply List.map_congr_left
    intro m _
    show view.countP (fun r => decide (ymKey r.arrival_date = m)) = _
    rw [List.countP_map]
    rfl
  rw [hmap, sum_counts (monthKeys view) (view.map fun r => ymKey r.arrival_date)
    (sorted_monthKeys view).nodup ?_, List.length_map]
  · rfl
  · intro x hx
    rcases List.mem_map.mp hx with ⟨r, hr, rfl⟩
    exact (mem_monthKeys view _).mpr ⟨r, hr, rfl⟩

/-- The distinct values of a list in order of first occurrence: the index
of `pandas.Series.value_counts`, whose hash-based grouping lists each key at
its first appearance. -/
def firstOccurrences {α : Type} [DecidableEq α] (l : List α) : List α :=
  l.foldl (fun acc a => if a ∈ acc then acc else acc ++ [a]) []

/-- Insert a (key, count) pair into a count-descending list, after every
pair of at least equal count: the stable descending sort step. -/
def insertDesc (p : String × Nat) : List (String × Nat) → List (String × Nat)
  | [] => [p]
  | q :: qs => if q.2 ≤ p.2 then p :: q :: qs else q :: insertDesc p qs

/-- Stable sort of (key, count) pairs by descending count. -/
def sortDesc : List (String × Nat) → List (String × Nat)
  | [] => []
  | p :: ps => insertDesc p (sortDesc ps)

/-- Pandas `Series.value_counts()`: each distinct value paired with its
count, ordered by descending count, ties in first-occurrence order. -/
def value_counts (l : List String) : List (String × Nat) :=
  sortDesc ((firstOccurrences l).map
    (fun c => (c, l.countP (fun b => decide (b = c)))))

/-- The `country` column restricted to the canceled rows of the view
(`filtered_df[filtered_df["is_canceled"] == "Canceled"]["country"]`). -/
def cancCountries (view : List Record) : List String :=
  (view.filter (fun r => decide (r.is_canceled = "Canceled"))).map
    (fun r => r.country)

/-- The bar-chart data of `app.py` line 81:
`filtered_df[filtered_df["is_canceled"] == "Canceled"]["country"].value_counts().nlargest(10)`. -/
def top_countries (view : List Record) : List (String × Nat) :=
  (value_counts (cancCountries view)).take 10

theorem mem_foldl_distinct {α : Type} [DecidableEq α] (l : List α)
    (acc : List α) (x : α) :
    x ∈ l.foldl (fun acc a => if a ∈ acc then acc else acc ++ [a]) acc ↔
      x ∈ acc ∨ x ∈ l := by
  induction l generalizing acc with
  | nil => simp
  | cons a l ih =>
    rw [List.foldl_cons, ih]
    by_cases h : a ∈ acc
    · simp only [if_pos h, List.mem_cons]
      constructor
      · rintro (hx | hx)
        · exact Or.inl hx
        · exact Or.inr (Or.inr hx)
      · rintro (hx | rfl | hx)
        · exact Or.inl hx
        · exact Or.inl h
        · exact Or.inr hx
    · simp only [if_neg h, List.mem_append, List.mem_singleton, List.mem_cons]
      tauto

theorem mem_firstOccurrences {α : Type} [DecidableEq α] (l : List α) (x : α) :
    x ∈ firstOccurrences l ↔ x ∈ l := by
  rw [firstOccurrences, mem_foldl_distinct]
  simp

theorem mem_insertDesc (x p : String × Nat) (l : List (String × Nat)) :
    x ∈ insertDesc p l ↔ x = p ∨ x ∈ l := by
  induction l with
  | nil => simp [insertDesc]
  | cons q qs ih =>
    by_cases h : q.2 ≤ p.2
    · simp [insertDesc, h]
    · simp [insertDesc, h, ih]; tauto

theorem mem_sortDesc (x : String × Nat) (l : List (String × Nat)) :
    x ∈ sortDesc l ↔ x ∈ l := by
  induction l with
  | nil => simp [sortDesc]
  | cons p ps ih =>
    show x ∈ insertDesc p (sortDesc ps) ↔ _
    rw [mem_insertDesc, ih]
    simp

theorem sorted_insertDesc (p : String × Nat) (l : List (String × Nat))
    (h : l.Sorted (fun a b => b.2 ≤ a.2)) :
    (insertDesc p l).Sorted (fun a b => b.2 ≤ a.2) := by
  induction l with
  | nil => simp [insertDesc]
  | cons q qs ih =>
    rcases List.sorted_cons.mp h with ⟨hq, hqs⟩
    by_cases h1 : q.2 ≤ p.2
    · simp only [insertDesc, if_pos h1]
      refine List.sorted_cons.mpr ⟨?_, h⟩
      intro b hb
      rcases List.mem_cons.mp hb with rfl | hb
      · exact h1
      · exact (hq b hb).trans h1
    · simp only [insertDesc, if_neg h1]
      refine List.sorted_cons.mpr ⟨?_, ih hqs⟩
      intro b hb
      rcases (mem_insertDesc b p qs).mp hb with rfl | hb
      · omega
      · exact hq b hb

theorem sorted_sortDesc (l : List (String × Nat)) :
    (sortDesc l).Sorted (fun a b => b.2 ≤ a.2) := by
  induction l with
  | nil => simp [sortDesc]
  | cons p ps ih => exact sorted_insertDesc p (sortDesc ps) ih

theorem filter_insertDesc (v : Nat) (p : String × Nat)
    (l : List (String × Nat)) (h : l.Sorted (fun a b => b.2 ≤ a.2)) :
    (insertDesc p l).filter (fun q => decide (q.2 = v)) =
      if p.2 = v then p :: l.filter (fun q => decide (q.2 = v))
      else l.filter (fun q => decide (q.2 = v)) := by
  induction l with
  | nil =>
    by_cases hv : p.2 = v <;> simp [insertDesc, List.filter, hv]
  | cons q qs ih =>
    rcases List.sorted_cons.mp h with ⟨hq, hqs⟩
    by_cases h1 : q.2 ≤ p.2
    · simp only [insertDesc, if_pos h1]
      by_cases hv : p.2 = v <;>
        simp [List.filter_cons, hv]
    · simp only [insertDesc, if_neg h1]
      rw [List.filter_cons, List.filter_cons, ih hqs]
      by_cases hv : p.2 = v
      · have hqv : ¬ q.2 = v := by omega
        simp [hv, hqv]
      · by_cases hqv : q.2 = v <;> simp [hv, hqv]

theorem filter_sortDesc (v : Nat) (l : List (String × Nat)) :
    (sortDesc l).filter (fun q => decide (q.2 = v)) =
      l.filter (fun q => decide (q.2 = v)) := by
  induction l with
  | nil => rfl
  | cons p ps ih =>
    show (insertDesc p (sortDesc ps)).filter _ = _
    rw [filter_insertDesc v p (sortDesc ps) (sorted_sortDesc ps), ih,
      List.filter_cons]
    by_cases hv : p.2 = v <;> simp [hv]

/-- Second canceled PRT booking, arriving in August 2016. -/
def prtB : Record := { exRecord with arrival_date := ⟨2016, 8, 1⟩ }

/-- Canceled booking from Spain. -/
def espA : Record := { exRecord with country := "ESP" }

/-- C7: the top-cancellation-countries series counts the canceled records
per country, is sorted by descending count, keeps at most 10 entries, ties
stay in first-encountered order (filtering the sorted counts by any count
value returns the first-occurrence-ordered pairs unchanged), and on the
view with canceled countries ["PRT", "PRT", "ESP"] it ranks PRT over ESP
with counts (2, 1). -/
theorem c7_top_cancellation_countries (view : List Record) :
    (∀ p ∈ top_countries view,
      p.2 = (view.filter (fun r => decide (r.is_canceled = "Canceled"))).countP
        (fun r => decide (r.country = p.1))) ∧
    (top_countries view).Sorted (fun a b => b.2 ≤ a.2) ∧
    (top_countries view).length ≤ 10 ∧
    (∀ v : Nat,
      (value_counts (cancCountries view)).filter (fun q => decide (q.2 = v)) =
        ((firstOccurrences (cancCountries view)).map
          (fun c => (c, (cancCountries view).countP
            (fun b => decide (b = c))))).filter
          (fun q => decide (q.2 = v))) ∧
    top_countries [exRecord, prtB, espA] = [("PRT", 2), ("ESP", 1)] := by
  refine ⟨?_, ?_, ?_, ?_, ?_⟩
  · intro p hp
    have hp2 : p ∈ value_counts (cancCountries view) :=
      List.take_subset 10 _ hp
    have hp3 := (mem_sortDesc p _).mp hp2
    rcases List.mem_map.mp hp3 with ⟨c, _, rfl⟩
    show (cancCountries view).countP (fun b => decide (b = c)) = _
    rw [cancCountries, List.countP_map]
    rfl
  · exact List.Pairwise.sublist (List.take_sublist 10 _) (sorted_sortDesc _)
  · exact List.length_take_le 10 _
  · intro v
    exact filter_sortDesc v _
  · decide

/-- C7 witness: on the ["PRT", "PRT", "ESP"] view the pair ("PRT", 2)
carries the count of canceled PRT records. -/
theorem c7_witness :
    ("PRT", 2).2 = ([exRecord, prtB, espA].filter
      (fun r => decide (r.is_canceled = "Canceled"))).countP
      (fun r => decide (r.country = ("PRT", 2).1)) :=
  (c7_top_cancellation_countries [exRecord, prtB, espA]).1 ("PRT", 2)
    (by decide)

/-- One raw CSV row of `cleaned_hotels.csv` with `arrival_date` already
coerced: the dataframe state between lines 15 and 16 of `app.py`, where a
`room_mismatch` column, if present in the file, has not yet been replaced. -/
structure RawRecord where
  hotel : String
  arrival_date : Date
  is_canceled : String
  customer_type : String
  lead_time : Nat
  adr : ℚ
  total_guests : Nat
  is_repeated_guest : String
  reserved_room_type : String
  assigned_room_type : String
  room_mismatch : Bool
  country : String
  meal : String
  required_car_parking_spaces : Nat
  total_of_special_requests : Nat
deriving DecidableEq

/-- Line 16 of `app.py`:
`df["room_mismatch"] = df["reserved_room_type"] != df["assigned_room_type"]`
— every column is taken as read, while `room_mismatch` is overwritten with
the inequality of the two room-type columns, whatever its input value. -/
def loadRecord (raw : RawRecord) : Record :=
  { hotel := raw.hotel, arrival_date := raw.arrival_date,
    is_canceled := raw.is_canceled, customer_type := raw.customer_type,
    lead_time := raw.lead_time, adr := raw.adr,
    total_guests := raw.total_guests,
    is_repeated_guest := raw.is_repeated_guest,
    reserved_room_type := raw.reserved_room_type,
    assigned_room_type := raw.assigned_room_type,
    room_mismatch := raw.reserved_room_type != raw.assigned_room_type,
    country := raw.country, meal := raw.meal,
    required_car_parking_spaces := raw.required_car_parking_spaces,
    total_of_special_requests := raw.total_of_special_requests }

/-- The loader applied to every row of the file. -/
def load_df (raws : List RawRecord) : List Record := raws.map loadRecord

/-- Raw row whose stored `room_mismatch` (false) contradicts its room-type
columns ("A" vs "B"). -/
def rawEx : RawRecord :=
  { hotel := "Resort Hotel", arrival_date := ⟨2016, 7, 5⟩,
    is_canceled := "Canceled", customer_type := "Transient",
    lead_time := 30, adr := 100, total_guests := 2,
    is_repeated_guest := "No", reserved_room_type := "A",
    assigned_room_type := "B", room_mismatch := false, country := "PRT",
    meal := "BB", required_car_parking_spaces := 0,
    total_of_special_requests := 1 }

/-- Filter specification that accepts `exRecord`. -/
def allSpec : FilterSpec :=
  { start_date := ⟨2015, 1, 1⟩, end_date := ⟨2017, 12, 31⟩,
    hotel_type := ["Resort Hotel", "City Hotel"],
    status := ["Canceled", "Not Canceled"],
    customer_type := ["Transient"] }

/-- C8: after loading, `room_mismatch` holds exactly when the reserved and
assigned room types differ; any `room_mismatch` value carried by the input
row is ignored; and the filter stage passes records through unchanged
(every filtered record is a member of the dataset as loaded). -/
theorem c8_room_mismatch_invariant (raw : RawRecord) (b : Bool) :
    ((loadRecord raw).room_mismatch = true ↔
      raw.reserved_room_type ≠ raw.assigned_room_type) ∧
    loadRecord { raw with room_mismatch := b } = loadRecord raw ∧
    (∀ (df : List Record) (spec : FilterSpec) (r : Record),
      r ∈ filtered_df df spec → r ∈ df) := by
  refine ⟨?_, rfl, ?_⟩
  · simp [loadRecord]
  · intro df spec r hr
    exact (List.mem_filter.mp hr).1

/-- C8 witness: a concrete filtered record is a record of its dataset. -/
theorem c8_witness : exRecord ∈ [exRecord] :=
  (c8_room_mismatch_invariant rawEx true).2.2 [exRecord] allSpec exRecord
    (by decide)

/-- Smaller of two dates. -/
def minD (a b : Date) : Date := if Date.le a b then a else b

/-- Larger of two dates. -/
def maxD (a b : Date) : Date := if Date.le a b then b else a

/-- Line 23 of `app.py`: `df["arrival_date"].min()` (junk value on an
empty frame, where pandas yields NaT). -/
def min_date (df : List Record) : Date :=
  match df with
  | [] => ⟨1970, 1, 1⟩
  | r :: rs => rs.foldl (fun acc x => minD acc x.arrival_date) r.arrival_date

/-- Line 23 of `app.py`: `df["arrival_date"].max()`. -/
def max_date (df : List Record) : Date :=
  match df with
  | [] => ⟨1970, 1, 1⟩
  | r :: rs => rs.foldl (fun acc x => maxD acc x.arrival_date) r.arrival_date

/-- Lines 24-30 of `app.py`: the default widget state — the full observed
date span and each multiselect defaulted to `df[col].unique()`, the
distinct values in order of first appearance. -/
def default_spec (df : List Record) : FilterSpec :=
  { start_date := min_date df, end_date := max_date df,
    hotel_type := firstOccurrences (df.map (fun r => r.hotel)),
    status := firstOccurrences (df.map (fun r => r.is_canceled)),
    customer_type := firstOccurrences (df.map (fun r => r.customer_type)) }

theorem minD_le_left (a b : Date) : Date.le (minD a b) a := by
  by_cases h : Date.le a b
  · simpa [minD, h] using Date.le_refl a
  · rcases Date.le_total a b with h1 | h1
    · exact absurd h1 h
    · simpa [minD, h] using h1

theorem minD_le_right (a b : Date) : Date.le (minD a b) b := by
  by_cases h : Date.le a b
  · simp [minD, h]
  · simpa [minD, h] using Date.le_refl b

theorem le_maxD_left (a b : Date) : Date.le a (maxD a b) := by
  by_cases h : Date.le a b
  · simp [maxD, h]
  · simpa [maxD, h] using Date.le_refl a

theorem le_maxD_right (a b : Date) : Date.le b (maxD a b) := by
  by_cases h : Date.le a b
  · simpa [maxD, h] using Date.le_refl b
  · rcases Date.le_total a b with h1 | h1
    · exact absurd h1 h
    · simpa [maxD, h] using h1

theorem foldl_minD_le (l : List Record) (a : Date) :
    Date.le (l.foldl (fun acc x => minD acc x.arrival_date) a) a ∧
    ∀ x ∈ l,
      Date.le (l.foldl (fun acc x => minD acc x.arrival_date) a)
        x.arrival_date := by
  induction l generalizing a with
  | nil => exact ⟨Date.le_refl a, by simp⟩
  | cons r rs ih =>
    rcases ih (minD a r.arrival_date) with ⟨h1, h2⟩
    refine ⟨Date.le_trans h1 (minD_le_left _ _), ?_⟩
    intro x hx
    rcases List.mem_cons.mp hx with rfl | hx
    · exact Date.le_trans h1 (minD_le_right _ _)
    · exact h2 x hx

theorem foldl_le_maxD (l : List Record) (a : Date) :
    Date.le a (l.foldl (fun acc x => maxD acc x.arrival_date) a) ∧
    ∀ x ∈ l,
      Date.le x.arrival_date
        (l.foldl (fun acc x => maxD acc x.arrival_date) a) := by
  induction l generalizing a with
  | nil => exact ⟨Date.le_refl a, by simp⟩
  | cons r rs ih =>
    rcases ih (maxD a r.arrival_date) with ⟨h1, h2⟩
    refine ⟨Date.le_trans (le_maxD_left _ _) h1, ?_⟩
    intro x hx
    rcases List.mem_cons.mp hx with rfl | hx
    · exact Date.le_trans (le_maxD_right _ _) h1
    · exact h2 x hx

theorem min_date_le (df : List Record) (r : Record) (hr : r ∈ df) :
    Date.le (min_date df) r.arrival_date := by
  cases df with
  | nil => cases hr
  | cons r0 rs =>
    rcases List.mem_cons.mp hr with rfl | hr
    · exact (foldl_minD_le rs r.arrival_date).1
    · exact (foldl_minD_le rs r0.arrival_date).2 r hr

theorem le_max_date (df : List Record) (r : Record) (hr : r ∈ df) :
    Date.le r.arrival_date (max_date df) := by
  cases df with
  | nil => cases hr
  | cons r0 rs =>
    rcases List.mem_cons.mp hr with rfl | hr
    · exact (foldl_le_maxD rs r.arrival_date).1
    · exact (foldl_le_maxD rs r0.arrival_date).2 r hr

/-- C10: filtering with the default widget state — the full observed date
span and every distinct value of the three categorical columns selected —
returns the entire dataset in its original order. -/
theorem c10_default_filter_identity (df : List Record) :
    filtered_df df (default_spec df) = df := by
  apply List.filter_eq_self.mpr
  intro r hr
  rw [decide_eq_true_eq]
  refine ⟨min_date_le df r hr, le_max_date df r hr, ?_, ?_, ?_⟩
  · exact (mem_firstOccurrences _ _).mpr (List.mem_map_of_mem _ hr)
  · exact (mem_firstOccurrences _ _).mpr (List.mem_map_of_mem _ hr)
  · exact (mem_firstOccurrences _ _).mpr (List.mem_map_of_mem _ hr)

/-- Decimal digit as a character. -/
def digitChar (d : Nat) : Char := Char.ofNat (48 + d)

/-- Decimal notation of a natural number as characters, as printed in the
CSV export. -/
def natToChars (n : Nat) : List Char :=
  if n = 0 then ['0'] else (Nat.digits 10 n).reverse.map digitChar

/-- Two-digit zero-padded decimal notation (month and day fields of an ISO
date). -/
def natToChars2 (n : Nat) : List Char :=
  if n < 10 then '0' :: natToChars n else natToChars n

/-- Numeric value of a decimal digit character. -/
def charVal (c : Char) : Nat := c.toNat - 48

/-- Parse a decimal digit string back to a natural number. -/
def natFromChars (l : List Char) : Nat :=
  Nat.ofDigits 10 (l.reverse.map charVal)

theorem charVal_digitChar (d : Nat) (h : d < 10) :
    charVal (digitChar d) = d := by
  interval_cases d <;> decide

theorem natFromChars_natToChars (n : Nat) :
    natFromChars (natToChars n) = n := by
  by_cases h : n = 0
  · subst h; decide
  · simp only [natToChars, if_neg h, natFromChars]
    have h1 : ((Nat.digits 10 n).reverse.map digitChar).reverse.map charVal =
        (Nat.digits 10 n).map (fun d => charVal (digitChar d)) := by
      rw [← List.map_reverse, List.reverse_reverse, List.map_map]
      rfl
    rw [h1]
    have h2 : (Nat.digits 10 n).map (fun d => charVal (digitChar d)) =
        Nat.digits 10 n := by
      conv_rhs => rw [← List.map_id (Nat.digits 10 n)]
      apply List.map_congr_left
      intro d hd
      exact charVal_digitChar d (Nat.digits_lt_base (by norm_num) hd)
    rw [h2, Nat.ofDigits_digits]

theorem natFromChars_natToChars2 (n : Nat) :
    natFromChars (natToChars2 n) = n := by
  by_cases h : n < 10
  · simp only [natToChars2, if_pos h, natFromChars, List.reverse_cons,
      List.map_append, Nat.ofDigits_append]
    have h0 : Nat.ofDigits 10 (['0'].map charVal) = 0 := by decide
    rw [h0, Nat.mul_zero, Nat.add_zero]
    exact natFromChars_natToChars n
  · simp only [natToChars2, if_neg h]
    exact natFromChars_natToChars n

theorem natToChars_digits (n : Nat) :
    ∀ c ∈ natToChars n, 48 ≤ c.toNat ∧ c.toNat ≤ 57 := by
  intro c hc
  by_cases h : n = 0
  · subst h
    rcases List.mem_singleton.mp hc with rfl
    decide
  · simp only [natToChars, if_neg h] at hc
    rcases List.mem_map.mp hc with ⟨d, hd, rfl⟩
    have hd10 : d < 10 :=
      Nat.digits_lt_base (by norm_num) (List.mem_reverse.mp hd)
    interval_cases d <;> decide

theorem natToChars2_digits (n : Nat) :
    ∀ c ∈ natToChars2 n, 48 ≤ c.toNat ∧ c.toNat ≤ 57 := by
  intro c hc
  by_cases h : n < 10
  · simp only [natToChars2, if_pos h] at hc
    rcases List.mem_cons.mp hc with rfl | hc
    · decide
    · exact natToChars_digits n c hc
  · simp only [natToChars2, if_neg h] at hc
    exact natToChars_digits n c hc

theorem digitChars_ne (l : List Char)
    (hb : ∀ c ∈ l, 48 ≤ c.toNat ∧ c.toNat ≤ 57) (sep : Char)
    (hs : sep.toNat < 48) : ∀ c ∈ l, c ≠ sep := by
  intro c hc e
  subst e
  have := hb c hc
  omega

/-- Split a character list on a separator, modelling the field structure of
one delimited cell. -/
def splitOnChar (sep : Char) : List Char → List (List Char)
  | [] => [[]]
  | a :: l =>
    match splitOnChar sep l with
    | [] => [[]]
    | g :: gs => if a = sep then [] :: g :: gs else (a :: g) :: gs

theorem splitOnChar_ne_nil (sep : Char) (l : List Char) :
    splitOnChar sep l ≠ [] := by
  cases l with
  | nil => simp [splitOnChar]
  | cons a l =>
    simp only [splitOnChar]
    rcases h : splitOnChar sep l with _ | ⟨g, gs⟩
    · simp
    · by_cases ha : a = sep <;> simp [ha]

theorem splitOnChar_nosep (sep : Char) (l : List Char)
    (h : ∀ c ∈ l, c ≠ sep) : splitOnChar sep l = [l] := by
  induction l with
  | nil => rfl
  | cons a l ih =>
    have ha : a ≠ sep := h a (List.mem_cons_self a l)
    simp only [splitOnChar, ih (fun c hc => h c (List.mem_cons_of_mem a hc))]
    simp [ha]

theorem splitOnChar_append (sep : Char) (x rest : List Char)
    (h : ∀ c ∈ x, c ≠ sep) :
    splitOnChar sep (x ++ sep :: rest) = x :: splitOnChar sep rest := by
  induction x with
  | nil =>
    show splitOnChar sep (sep :: rest) = [] :: splitOnChar sep rest
    simp only [splitOnChar]
    rcases hne : splitOnChar sep rest with _ | ⟨g, gs⟩
    · exact absurd hne (splitOnChar_ne_nil sep rest)
    · simp
  | cons a x ih =>
    have ha : a ≠ sep := h a (List.mem_cons_self a x)
    show splitOnChar sep (a :: (x ++ sep :: rest)) = _
    simp only [splitOnChar, ih (fun c hc => h c (List.mem_cons_of_mem a hc))]
    simp [ha]

/-- ISO date cell of the CSV export: `YYYY-MM-DD` with zero-padded month
and day, as `to_csv` prints a normalized datetime column. -/
def serializeDate (d : Date) : String :=
  String.mk (natToChars d.year ++
    '-' :: (natToChars2 d.month ++ '-' :: natToChars2 d.day))

/-- The loader's date coercion (`pd.to_datetime`) on one ISO cell:
`none` models the unparseable-date failure. -/
def parseDate (s : String) : Option Date :=
  match splitOnChar '-' s.data with
  | [y, m, d] => some ⟨natFromChars y, natFromChars m, natFromChars d⟩
  | _ => none

theorem parseDate_serializeDate (d : Date) :
    parseDate (serializeDate d) = some d := by
  unfold parseDate serializeDate
  rw [show (String.mk (natToChars d.year ++
      '-' :: (natToChars2 d.month ++ '-' :: natToChars2 d.day))).data =
      natToChars d.year ++
      '-' :: (natToChars2 d.month ++ '-' :: natToChars2 d.day) from rfl]
  rw [splitOnChar_append '-' _ _
      (digitChars_ne _ (natToChars_digits d.year) '-' (by decide)),
    splitOnChar_append '-' _ _
      (digitChars_ne _ (natToChars2_digits d.month) '-' (by decide)),
    splitOnChar_nosep '-' _
      (digitChars_ne _ (natToChars2_digits d.day) '-' (by decide))]
  simp [natFromChars_natToChars, natFromChars_natToChars2]

/-- Number of cents of a monetary rational. -/
def ratToCents (q : ℚ) : Nat := (q * 100).num.toNat

/-- Two-decimal money cell of the CSV export for the `adr` column. -/
def serializeADR (q : ℚ) : String :=
  String.mk (natToChars (ratToCents q / 100) ++
    '.' :: natToChars2 (ratToCents q % 100))

/-- The loader's numeric coercion of a two-decimal money cell. -/
def parseADR (s : String) : Option ℚ :=
  match splitOnChar '.' s.data with
  | [a, b] => some ((natFromChars a : ℚ) + (natFromChars b : ℚ) / 100)
  | _ => none

theorem parseADR_serializeADR (q : ℚ) (n : Nat) (hq : q = (n : ℚ) / 100) :
    parseADR (serializeADR q) = some q := by
  have hc : ratToCents q = n := by
    subst hq
    unfold ratToCents
    rw [div_mul_cancel₀ _ (by norm_num : (100 : ℚ) ≠ 0)]
    simp
  unfold parseADR serializeADR
  rw [hc]
  rw [show (String.mk (natToChars (n / 100) ++
      '.' :: natToChars2 (n % 100))).data =
      natToChars (n / 100) ++ '.' :: natToChars2 (n % 100) from rfl]
  rw [splitOnChar_append '.' _ _
      (digitChars_ne _ (natToChars_digits (n / 100)) '.' (by decide)),
    splitOnChar_nosep '.' _
      (digitChars_ne _ (natToChars2_digits (n % 100)) '.' (by decide))]
  simp only [natFromChars_natToChars, natFromChars_natToChars2, hq,
    Option.some_inj]
  have h2 : ((n / 100) * 100 + n % 100 : ℕ) = n := by omega
  calc ((n / 100 : Nat) : ℚ) + ((n % 100 : Nat) : ℚ) / 100
      = (((n / 100) * 100 + n % 100 : ℕ) : ℚ) / 100 := by push_cast; ring
    _ = (n : ℚ) / 100 := by rw [h2]

/-- Boolean cell of the CSV export, printed as pandas prints `bool`. -/
def serializeBool (b : Bool) : String := if b then "True" else "False"

/-- Reading a boolean cell back. -/
def parseBool (s : String) : Option Bool :=
  if s = "True" then some true
  else if s = "False" then some false else none

theorem parseBool_serializeBool (b : Bool) :
    parseBool (serializeBool b) = some b := by
  cases b <;> decide

/-- One row of `filtered_df.to_csv(index=False)` (`app.py` line 119): the
fifteen cells of a record, in the table's column order, with dates in ISO
form, numbers in decimal notation and booleans as `True` / `False`. -/
def serializeRecord (r : Record) : List String :=
  [r.hotel, serializeDate r.arrival_date, r.is_canceled, r.customer_type,
    String.mk (natToChars r.lead_time), serializeADR r.adr,
    String.mk (natToChars r.total_guests), r.is_repeated_guest,
    r.reserved_room_type, r.assigned_room_type,
    serializeBool r.room_mismatch, r.country, r.meal,
    String.mk (natToChars r.required_car_parking_spaces),
    String.mk (natToChars r.total_of_special_requests)]

/-- Numeric cell coercion. -/
def parseNat (s : String) : Nat := natFromChars s.data

/-- Re-reading one exported row through the loader, except that
`room_mismatch` is taken from the exported cell instead of being derived
again: `none` models a malformed row. -/
def parseRecord (cells : List String) : Option Record :=
  match cells with
  | [hotelC, arrC, cancC, ctypeC, ltC, adrC, tgC, repC, resC, asgC, misC,
      ctryC, mealC, parkC, reqC] =>
    match parseDate arrC, parseADR adrC, parseBool misC with
    | some d, some a, some m =>
      some (
        { hotel := hotelC, arrival_date := d, is_canceled := cancC,
          customer_type := ctypeC, lead_time := parseNat ltC, adr := a,
          total_guests := parseNat tgC, is_repeated_guest := repC,
          reserved_room_type := resC, assigned_room_type := asgC,
          room_mismatch := m, country := ctryC, meal := mealC,
          required_car_parking_spaces := parseNat parkC,
          total_of_special_requests := parseNat reqC } : Record)
    | _, _, _ => none
  | _ => none

/-- Re-reading a whole exported table. -/
def parse_rows : List (List String) → Option (List Record)
  | [] => some []
  | row :: rows =>
    match parseRecord row, parse_rows rows with
    | some r, some rs => some (r :: rs)
    | _, _ => none

theorem parseRecord_serializeRecord (r : Record) (n : Nat)
    (hq : r.adr = (n : ℚ) / 100) :
    parseRecord (serializeRecord r) = some r := by
  have hd := parseDate_serializeDate r.arrival_date
  have ha := parseADR_serializeADR r.adr n hq
  have hb := parseBool_serializeBool r.room_mismatch
  simp [parseRecord, serializeRecord, hd, ha, hb, parseNat,
    natFromChars_natToChars]

/-- C9: serializing a filtered view to the delimited export and re-parsing
every row through the loader (with `room_mismatch` read from the export
rather than re-derived) reproduces the view record for record, provided
each `adr` is a whole number of cents, as exported money values are. -/
theorem c9_export_round_trip (view : List Record)
    (h : ∀ r ∈ view, ∃ n : Nat, r.adr = (n : ℚ) / 100) :
    parse_rows (view.map serializeRecord) = some view := by
  induction view with
  | nil => rfl
  | cons r rs ih =>
    rcases h r (List.mem_cons_self r rs) with ⟨n, hn⟩
    have hr := parseRecord_serializeRecord r n hn
    have hrs := ih (fun x hx => h x (List.mem_cons_of_mem r hx))
    simp [parse_rows, hr, hrs]

/-- C9 witness: the one-record view with `adr` = 100.00 survives the export
round trip. -/
theorem c9_witness :
    parse_rows ([exRecord].map serializeRecord) = some [exRecord] :=
  c9_export_round_trip [exRecord] (by
    intro r hr
    rw [List.mem_singleton] at hr
    subst hr
    exact ⟨10000, by norm_num [exRecord]⟩)
